import Mathlib

/-!
A verification development for the auto-circuit repository, covering the
factorized-graph node enumeration and the autoencoder wrapper
(src/auto_circuit/model_utils/autoencoder_transformer.py) and the
edge-pruning evaluator (src/auto_circuit/prune.py).

Each definition is a shallow embedding of the corresponding Python function;
doc comments name the source symbol being embedded.
-/

namespace AutoCircuit

/-- Shallow embedding of auto_circuit.types.SrcNode as used by
factorized_src_nodes: display name, module/activation path, layer index,
global ordinal index, optional head dimension/index and weight reference. -/
structure SrcNode where
  name : String
  module_name : String
  layer : Nat
  idx : Nat
  head_dim : Option Nat := none
  head_idx : Option Nat := none
  weight : Option String := none
  weight_head_dim : Option Nat := none
deriving DecidableEq, Repr

/-- Shallow embedding of auto_circuit.types.DestNode as used by
factorized_dest_nodes; same attribute shape as SrcNode. -/
structure DestNode where
  name : String
  module_name : String
  layer : Nat
  idx : Nat
  head_dim : Option Nat := none
  head_idx : Option Nat := none
  weight : Option String := none
  weight_head_dim : Option Nat := none
deriving DecidableEq, Repr

/-- The configuration flags of the wrapped HookedTransformer that
factorized_src_nodes / factorized_dest_nodes read from model.cfg. -/
structure ModelCfg where
  n_layers : Nat
  n_heads : Nat
  use_attn_result : Bool
  use_attn_in : Bool
  use_split_qkv_input : Bool
  use_hook_mlp_in : Bool
  parallel_attn_mlp : Bool
deriving DecidableEq, Repr

/-- The part of an AutoencoderTransformer that the node enumeration reads:
the config, and per transformer block the retained latent count of the
sparse autoencoder installed at blocks[i].hook_mlp_out
(model.blocks[block_idx].hook_mlp_out.n_latents in the source). -/
structure AEModel where
  cfg : ModelCfg
  nLatents : Nat → Nat

/-- The "Resid Start" embedding source node added first by
factorized_src_nodes, with layer = next(layers) = 0 and idx = next(idxs) = 0. -/
def srcEmbedNode : SrcNode :=
  { name := "Resid Start"
    module_name := "blocks.0.hook_resid_pre"
    layer := 0
    idx := 0
    weight := some "embed.W_E" }

/-- One attention-head source node of factorized_src_nodes. -/
def srcAttnNode (block_idx head_idx layer idx : Nat) : SrcNode :=
  { name := s!"A{block_idx}.{head_idx}"
    module_name := s!"blocks.{block_idx}.attn.hook_result"
    layer := layer
    idx := idx
    head_dim := some 2
    head_idx := some head_idx
    weight := some s!"blocks.{block_idx}.attn.W_O"
    weight_head_dim := some 0 }

/-- One MLP-latent source node of factorized_src_nodes. -/
def srcLatentNode (block_idx latent_idx layer idx : Nat) : SrcNode :=
  { name := s!"MLP {block_idx} Latent {latent_idx}"
    module_name := s!"blocks.{block_idx}.hook_mlp_out.latent_outs"
    layer := layer
    idx := idx
    head_dim := some 2
    head_idx := some latent_idx
    weight := some s!"blocks.{block_idx}.hook_mlp_out.decoder.weight"
    weight_head_dim := some 0 }

/-- The source nodes contributed by one transformer block in
factorized_src_nodes: one node per attention head at layer `layer`, then one
node per retained latent at the same layer when parallel_attn_mlp is set and
at the next layer otherwise. The ordinal counter starts at `idx0` and runs
through the heads, then the latents. -/
def srcBlockNodes (m : AEModel) (block_idx layer idx0 : Nat) : List SrcNode :=
  (List.range m.cfg.n_heads).map
    (fun h => srcAttnNode block_idx h layer (idx0 + h)) ++
  (List.range (m.nLatents block_idx)).map
    (fun l => srcLatentNode block_idx l
      (if m.cfg.parallel_attn_mlp then layer else layer + 1)
      (idx0 + m.cfg.n_heads + l))

/-- The block loop of factorized_src_nodes, with the itertools.count states
made explicit: `k` blocks remain, the next block index is `block_idx`, the
layers counter would next yield `layerState` and the idxs counter `idxState`. -/
def srcBlocksFrom (m : AEModel) : Nat → Nat → Nat → Nat → List SrcNode
  | 0, _, _, _ => []
  | k + 1, block_idx, layerState, idxState =>
    srcBlockNodes m block_idx layerState idxState ++
      srcBlocksFrom m k (block_idx + 1)
        ((if m.cfg.parallel_attn_mlp then layerState else layerState + 1) + 1)
        (idxState + m.cfg.n_heads + m.nLatents block_idx)

/-- The full node sequence built by factorized_src_nodes, in the order nodes
are added to the Python set: the "Resid Start" node (layer 0, idx 0) followed
by the per-block nodes with both counters at 1. -/
def srcNodesList (m : AEModel) : List SrcNode :=
  srcEmbedNode :: srcBlocksFrom m m.cfg.n_layers 0 1 1

/-- Embedding of factorized_src_nodes: the four assert statements at the top
of the function, then the enumeration. The Python function returns a set;
the list records the enumeration order in which ordinal indices are assigned,
and its elements are pairwise distinct, so the set has the same cardinality. -/
def factorized_src_nodes (m : AEModel) : Except String (List SrcNode) :=
  if m.cfg.use_attn_result = false then .error "AssertionError: use_attn_result"
  else if m.cfg.use_attn_in = false then .error "AssertionError: use_attn_in"
  else if m.cfg.use_split_qkv_input = false then
    .error "AssertionError: use_split_qkv_input"
  else if m.cfg.use_hook_mlp_in = false then
    .error "AssertionError: use_hook_mlp_in"
  else .ok (srcNodesList m)

/-- One attention-head destination node of factorized_dest_nodes. -/
def destAttnNode (block_idx head_idx layer idx : Nat) : DestNode :=
  { name := s!"A{block_idx}.{head_idx}"
    module_name := s!"blocks.{block_idx}.hook_attn_in"
    layer := layer
    idx := idx
    head_dim := some 2
    head_idx := some head_idx }

/-- The MLP-input destination node of one block in factorized_dest_nodes. -/
def destMlpNode (block_idx layer idx : Nat) : DestNode :=
  { name := s!"MLP {block_idx}"
    module_name := s!"blocks.{block_idx}.hook_mlp_in"
    layer := layer
    idx := idx
    weight := some s!"blocks.{block_idx}.mlp.W_in" }

/-- The terminal "Resid End" destination node of factorized_dest_nodes,
tied to the unembedding weight. -/
def destResidEndNode (m : AEModel) (layer idx : Nat) : DestNode :=
  { name := "Resid End"
    module_name := s!"blocks.{m.cfg.n_layers - 1}.hook_resid_post"
    layer := layer
    idx := idx
    weight := some "unembed.W_U" }

/-- The destination nodes contributed by one transformer block in
factorized_dest_nodes: one node per attention head at layer `layer`, then the
MLP-input node at the same layer when parallel_attn_mlp is set and at the
next layer otherwise. -/
def destBlockNodes (m : AEModel) (block_idx layer idx0 : Nat) : List DestNode :=
  (List.range m.cfg.n_heads).map
    (fun h => destAttnNode block_idx h layer (idx0 + h)) ++
  [destMlpNode block_idx
    (if m.cfg.parallel_attn_mlp then layer else layer + 1)
    (idx0 + m.cfg.n_heads)]

/-- The block loop of factorized_dest_nodes with explicit counter states;
when the loop is exhausted the "Resid End" node consumes the final counter
values (layer = next(layers), idx = next(idxs)). -/
def destBlocksFrom (m : AEModel) : Nat → Nat → Nat → Nat → List DestNode
  | 0, _, layerState, idxState => [destResidEndNode m layerState idxState]
  | k + 1, block_idx, layerState, idxState =>
    destBlockNodes m block_idx layerState idxState ++
      destBlocksFrom m k (block_idx + 1)
        ((if m.cfg.parallel_attn_mlp then layerState else layerState + 1) + 1)
        (idxState + m.cfg.n_heads + 1)

/-- The full node sequence built by factorized_dest_nodes: the layers counter
starts at count(1) and the idxs counter at count(). -/
def destNodesList (m : AEModel) : List DestNode :=
  destBlocksFrom m m.cfg.n_layers 0 1 0

/-- Embedding of factorized_dest_nodes. The source checks only three flags:
the use_split_qkv_input assert is commented out in the source
(autoencoder_transformer.py line 223). -/
def factorized_dest_nodes (m : AEModel) : Except String (List DestNode) :=
  if m.cfg.use_attn_result = false then .error "AssertionError: use_attn_result"
  else if m.cfg.use_attn_in = false then .error "AssertionError: use_attn_in"
  else if m.cfg.use_hook_mlp_in = false then
    .error "AssertionError: use_hook_mlp_in"
  else .ok (destNodesList m)

/-- Total number of source nodes contributed by `k` blocks starting at block
`b`: heads plus retained latents per block. -/
def srcCountFrom (m : AEModel) : Nat → Nat → Nat
  | 0, _ => 0
  | k + 1, b => m.cfg.n_heads + m.nLatents b + srcCountFrom m k (b + 1)

theorem range'_app (s m n : Nat) :
    List.range' s m ++ List.range' (s + m) n = List.range' s (m + n) := by
  rw [List.range'_append_1, Nat.add_comm]

theorem map_idx_srcBlockNodes (m : AEModel) (b ℓ i : Nat) :
    (srcBlockNodes m b ℓ i).map (fun nd => nd.idx) =
      List.range' i (m.cfg.n_heads + m.nLatents b) := by
  simp only [srcBlockNodes, List.map_append, List.map_map]
  rw [← range'_app i m.cfg.n_heads (m.nLatents b)]
  congr 1
  · rw [List.range'_eq_map_range]
    rfl
  · rw [List.range'_eq_map_range]
    rfl

theorem map_idx_srcBlocksFrom (m : AEModel) :
    ∀ k b ℓ i, (srcBlocksFrom m k b ℓ i).map (fun nd => nd.idx) =
      List.range' i (srcCountFrom m k b)
  | 0, _, _, _ => rfl
  | k + 1, b, ℓ, i => by
    simp only [srcBlocksFrom, srcCountFrom, List.map_append,
      map_idx_srcBlockNodes, map_idx_srcBlocksFrom m k]
    rw [Nat.add_assoc i m.cfg.n_heads (m.nLatents b),
      range'_app i (m.cfg.n_heads + m.nLatents b)]

theorem map_idx_destBlockNodes (m : AEModel) (b ℓ i : Nat) :
    (destBlockNodes m b ℓ i).map (fun nd => nd.idx) =
      List.range' i (m.cfg.n_heads + 1) := by
  simp only [destBlockNodes, List.map_append, List.map_map]
  rw [← range'_app i m.cfg.n_heads 1]
  congr 1
  rw [List.range'_eq_map_range]
  rfl

theorem map_idx_destBlocksFrom (m : AEModel) :
    ∀ k b ℓ i, (destBlocksFrom m k b ℓ i).map (fun nd => nd.idx) =
      List.range' i (k * (m.cfg.n_heads + 1) + 1)
  | 0, _, _, _ => by
    simp [destBlocksFrom, destResidEndNode]
  | k + 1, b, ℓ, i => by
    simp only [destBlocksFrom, List.map_append, map_idx_destBlockNodes,
      map_idx_destBlocksFrom m k]
    rw [Nat.add_assoc i m.cfg.n_heads 1, range'_app i (m.cfg.n_heads + 1)]
    congr 1
    ring

theorem srcCountFrom_const (m : AEModel) (L : Nat) (hL : ∀ j, m.nLatents j = L) :
    ∀ k b, srcCountFrom m k b = k * (m.cfg.n_heads + L)
  | 0, _ => by simp [srcCountFrom]
  | k + 1, b => by
    simp only [srcCountFrom, hL, srcCountFrom_const m L hL k]
    ring

theorem map_idx_srcNodesList (m : AEModel) :
    (srcNodesList m).map (fun nd => nd.idx) =
      List.range' 0 (1 + srcCountFrom m m.cfg.n_layers 0) := by
  have h : 1 + srcCountFrom m m.cfg.n_layers 0 =
      srcCountFrom m m.cfg.n_layers 0 + 1 := Nat.add_comm _ _
  rw [h, List.range'_succ]
  simp only [srcNodesList, List.map_cons, map_idx_srcBlocksFrom]
  rfl

theorem map_const_range {α : Type} (c : α) (f : Nat → α) (hf : ∀ x, f x = c)
    (n : Nat) : (List.range n).map f = List.replicate n c := by
  rw [show f = fun _ => c from funext hf, List.map_const', List.length_range]

theorem map_layer_srcBlockNodes (m : AEModel) (b ℓ i : Nat) :
    (srcBlockNodes m b ℓ i).map (fun nd => nd.layer) =
      List.replicate m.cfg.n_heads ℓ ++
        List.replicate (m.nLatents b)
          (if m.cfg.parallel_attn_mlp then ℓ else ℓ + 1) := by
  simp only [srcBlockNodes, List.map_append, List.map_map]
  congr 1
  · exact map_const_range ℓ _ (fun x => rfl) _
  · exact map_const_range _ _ (fun x => rfl) _

theorem map_layer_destBlockNodes (m : AEModel) (b ℓ i : Nat) :
    (destBlockNodes m b ℓ i).map (fun nd => nd.layer) =
      List.replicate m.cfg.n_heads ℓ ++
        [if m.cfg.parallel_attn_mlp then ℓ else ℓ + 1] := by
  simp only [destBlockNodes, List.map_append, List.map_map]
  congr 1
  exact map_const_range ℓ _ (fun x => rfl) _

theorem pairwise_le_append {l1 l2 : List Nat}
    (h1 : List.Pairwise (· ≤ ·) l1) (h2 : List.Pairwise (· ≤ ·) l2)
    (h12 : ∀ x ∈ l1, ∀ y ∈ l2, x ≤ y) :
    List.Pairwise (· ≤ ·) (l1 ++ l2) :=
  List.pairwise_append.mpr ⟨h1, h2, h12⟩

theorem pairwise_layer_srcBlocksFrom (m : AEModel) :
    ∀ k b ℓ i,
      List.Pairwise (· ≤ ·) ((srcBlocksFrom m k b ℓ i).map (fun nd => nd.layer)) ∧
        ∀ x ∈ (srcBlocksFrom m k b ℓ i).map (fun nd => nd.layer), ℓ ≤ x
  | 0, b, ℓ, i => by simp [srcBlocksFrom]
  | k + 1, b, ℓ, i => by
    set ℓ2 := if m.cfg.parallel_attn_mlp then ℓ else ℓ + 1 with hℓ2
    have hle : ℓ ≤ ℓ2 := by
      rw [hℓ2]
      split <;> omega
    obtain ⟨ih1, ih2⟩ := pairwise_layer_srcBlocksFrom m k (b + 1) (ℓ2 + 1)
      (i + m.cfg.n_heads + m.nLatents b)
    constructor
    · simp only [srcBlocksFrom, List.map_append, map_layer_srcBlockNodes,
        List.append_assoc, ← hℓ2]
      refine pairwise_le_append ?_ (pairwise_le_append ?_ ih1 ?_) ?_
      · simp
      · simp
      · intro x hx y hy
        have hx2 := List.eq_of_mem_replicate hx
        have hy2 := ih2 y hy
        omega
      · intro x hx y hy
        have hx2 := List.eq_of_mem_replicate hx
        rcases List.mem_append.mp hy with hy1 | hy1
        · have := List.eq_of_mem_replicate hy1
          omega
        · have := ih2 y hy1
          omega
    · intro x hx
      simp only [srcBlocksFrom, List.map_append, map_layer_srcBlockNodes,
        List.append_assoc, ← hℓ2, List.mem_append] at hx
      rcases hx with hx1 | hx1 | hx1
      · have := List.eq_of_mem_replicate hx1
        omega
      · have := List.eq_of_mem_replicate hx1
        omega
      · have := ih2 x hx1
        omega

theorem pairwise_layer_destBlocksFrom (m : AEModel) :
    ∀ k b ℓ i,
      List.Pairwise (· ≤ ·) ((destBlocksFrom m k b ℓ i).map (fun nd => nd.layer)) ∧
        ∀ x ∈ (destBlocksFrom m k b ℓ i).map (fun nd => nd.layer), ℓ ≤ x
  | 0, b, ℓ, i => by simp [destBlocksFrom, destResidEndNode]
  | k + 1, b, ℓ, i => by
    set ℓ2 := if m.cfg.parallel_attn_mlp then ℓ else ℓ + 1 with hℓ2
    have hle : ℓ ≤ ℓ2 := by
      rw [hℓ2]
      split <;> omega
    obtain ⟨ih1, ih2⟩ := pairwise_layer_destBlocksFrom m k (b + 1) (ℓ2 + 1)
      (i + m.cfg.n_heads + 1)
    constructor
    · simp only [destBlocksFrom, List.map_append, map_layer_destBlockNodes,
        List.append_assoc, ← hℓ2]
      refine pairwise_le_append ?_ (pairwise_le_append ?_ ih1 ?_) ?_
      · simp
      · simp
      · intro x hx y hy
        have hx2 : x = ℓ2 := by simpa using hx
        have hy2 := ih2 y hy
        omega
      · intro x hx y hy
        have hx2 := List.eq_of_mem_replicate hx
        rcases List.mem_append.mp hy with hy1 | hy1
        · have hy2 : y = ℓ2 := by simpa using hy1
          omega
        · have := ih2 y hy1
          omega
    · intro x hx
      simp only [destBlocksFrom, List.map_append, map_layer_destBlockNodes,
        List.append_assoc, ← hℓ2, List.mem_append] at hx
      rcases hx with hx1 | hx1 | hx1
      · have := List.eq_of_mem_replicate hx1
        omega
      · have hx2 : x = ℓ2 := by simpa using hx1
        omega
      · have := ih2 x hx1
        omega

theorem pairwise_layer_srcNodesList (m : AEModel) :
    List.Pairwise (· ≤ ·) ((srcNodesList m).map (fun nd => nd.layer)) := by
  obtain ⟨h1, h2⟩ := pairwise_layer_srcBlocksFrom m m.cfg.n_layers 0 1 1
  simp only [srcNodesList, List.map_cons]
  exact List.Pairwise.cons (fun x hx => Nat.le_of_lt (h2 x hx)) h1

theorem pairwise_layer_destNodesList (m : AEModel) :
    List.Pairwise (· ≤ ·) ((destNodesList m).map (fun nd => nd.layer)) :=
  (pairwise_layer_destBlocksFrom m m.cfg.n_layers 0 1 0).1

theorem map_idx_destNodesList (m : AEModel) :
    (destNodesList m).map (fun nd => nd.idx) =
      List.range' 0 (m.cfg.n_layers * (m.cfg.n_heads + 1) + 1) :=
  map_idx_destBlocksFrom m m.cfg.n_layers 0 1 0

theorem srcAttnNode_mem (m : AEModel) (L : Nat) (hL : ∀ j2, m.nLatents j2 = L) :
    ∀ k b ℓ i j hd, j < k → hd < m.cfg.n_heads →
      srcAttnNode (b + j) hd
          (ℓ + j * (if m.cfg.parallel_attn_mlp then 1 else 2))
          (i + j * (m.cfg.n_heads + L) + hd) ∈ srcBlocksFrom m k b ℓ i
  | 0, b, ℓ, i, j, hd => fun hj _ => absurd hj (Nat.not_lt_zero j)
  | k + 1, b, ℓ, i, 0, hd => fun _ hhd => by
    simp only [srcBlocksFrom, Nat.add_zero, Nat.zero_mul]
    apply List.mem_append_left
    simp only [srcBlockNodes]
    apply List.mem_append_left
    exact List.mem_map.mpr ⟨hd, List.mem_range.mpr hhd, rfl⟩
  | k + 1, b, ℓ, i, j + 1, hd => fun hj hhd => by
    simp only [srcBlocksFrom]
    apply List.mem_append_right
    have ih := srcAttnNode_mem m L hL k (b + 1)
      ((if m.cfg.parallel_attn_mlp then ℓ else ℓ + 1) + 1)
      (i + m.cfg.n_heads + m.nLatents b) j hd (by omega) hhd
    have e1 : b + 1 + j = b + (j + 1) := by omega
    have e2 : (if m.cfg.parallel_attn_mlp then ℓ else ℓ + 1) + 1 +
        j * (if m.cfg.parallel_attn_mlp then 1 else 2) =
        ℓ + (j + 1) * (if m.cfg.parallel_attn_mlp then 1 else 2) := by
      cases m.cfg.parallel_attn_mlp <;> simp <;> omega
    have e3 : i + m.cfg.n_heads + m.nLatents b + j * (m.cfg.n_heads + L) + hd =
        i + (j + 1) * (m.cfg.n_heads + L) + hd := by
      rw [hL b]
      ring
    rw [e1, e2, e3] at ih
    exact ih

theorem srcLatentNode_mem (m : AEModel) (L : Nat) (hL : ∀ j2, m.nLatents j2 = L) :
    ∀ k b ℓ i j lt, j < k → lt < L →
      srcLatentNode (b + j) lt
          (if m.cfg.parallel_attn_mlp
            then ℓ + j * (if m.cfg.parallel_attn_mlp then 1 else 2)
            else ℓ + j * (if m.cfg.parallel_attn_mlp then 1 else 2) + 1)
          (i + j * (m.cfg.n_heads + L) + m.cfg.n_heads + lt)
        ∈ srcBlocksFrom m k b ℓ i
  | 0, b, ℓ, i, j, lt => fun hj _ => absurd hj (Nat.not_lt_zero j)
  | k + 1, b, ℓ, i, 0, lt => fun _ hlt => by
    simp only [srcBlocksFrom, Nat.add_zero, Nat.zero_mul]
    apply List.mem_append_left
    simp only [srcBlockNodes]
    apply List.mem_append_right
    refine List.mem_map.mpr ⟨lt, List.mem_range.mpr ?_, rfl⟩
    rw [hL b]
    exact hlt
  | k + 1, b, ℓ, i, j + 1, lt => fun hj hlt => by
    simp only [srcBlocksFrom]
    apply List.mem_append_right
    have ih := srcLatentNode_mem m L hL k (b + 1)
      ((if m.cfg.parallel_attn_mlp then ℓ else ℓ + 1) + 1)
      (i + m.cfg.n_heads + m.nLatents b) j lt (by omega) hlt
    have e1 : b + 1 + j = b + (j + 1) := by omega
    have e2 : (if m.cfg.parallel_attn_mlp
          then (if m.cfg.parallel_attn_mlp then ℓ else ℓ + 1) + 1 +
            j * (if m.cfg.parallel_attn_mlp then 1 else 2)
          else (if m.cfg.parallel_attn_mlp then ℓ else ℓ + 1) + 1 +
            j * (if m.cfg.parallel_attn_mlp then 1 else 2) + 1) =
        (if m.cfg.parallel_attn_mlp
          then ℓ + (j + 1) * (if m.cfg.parallel_attn_mlp then 1 else 2)
          else ℓ + (j + 1) * (if m.cfg.parallel_attn_mlp then 1 else 2) + 1) := by
      cases m.cfg.parallel_attn_mlp <;> simp <;> omega
    have e3 : i + m.cfg.n_heads + m.nLatents b + j * (m.cfg.n_heads + L) +
        m.cfg.n_heads + lt =
        i + (j + 1) * (m.cfg.n_heads + L) + m.cfg.n_heads + lt := by
      rw [hL b]
      ring
    rw [e1, e2, e3] at ih
    exact ih

theorem destAttnNode_mem (m : AEModel) :
    ∀ k b ℓ i j hd, j < k → hd < m.cfg.n_heads →
      destAttnNode (b + j) hd
          (ℓ + j * (if m.cfg.parallel_attn_mlp then 1 else 2))
          (i + j * (m.cfg.n_heads + 1) + hd) ∈ destBlocksFrom m k b ℓ i
  | 0, b, ℓ, i, j, hd => fun hj _ => absurd hj (Nat.not_lt_zero j)
  | k + 1, b, ℓ, i, 0, hd => fun _ hhd => by
    simp only [destBlocksFrom, Nat.add_zero, Nat.zero_mul]
    apply List.mem_append_left
    simp only [destBlockNodes]
    apply List.mem_append_left
    exact List.mem_map.mpr ⟨hd, List.mem_range.mpr hhd, rfl⟩
  | k + 1, b, ℓ, i, j + 1, hd => fun hj hhd => by
    simp only [destBlocksFrom]
    apply List.mem_append_right
    have ih := destAttnNode_mem m k (b + 1)
      ((if m.cfg.parallel_attn_mlp then ℓ else ℓ + 1) + 1)
      (i + m.cfg.n_heads + 1) j hd (by omega) hhd
    have e1 : b + 1 + j = b + (j + 1) := by omega
    have e2 : (if m.cfg.parallel_attn_mlp then ℓ else ℓ + 1) + 1 +
        j * (if m.cfg.parallel_attn_mlp then 1 else 2) =
        ℓ + (j + 1) * (if m.cfg.parallel_attn_mlp then 1 else 2) := by
      cases m.cfg.parallel_attn_mlp <;> simp <;> omega
    have e3 : i + m.cfg.n_heads + 1 + j * (m.cfg.n_heads + 1) + hd =
        i + (j + 1) * (m.cfg.n_heads + 1) + hd := by ring
    rw [e1, e2, e3] at ih
    exact ih

theorem destMlpNode_mem (m : AEModel) :
    ∀ k b ℓ i j, j < k →
      destMlpNode (b + j)
          (if m.cfg.parallel_attn_mlp
            then ℓ + j * (if m.cfg.parallel_attn_mlp then 1 else 2)
            else ℓ + j * (if m.cfg.parallel_attn_mlp then 1 else 2) + 1)
          (i + j * (m.cfg.n_heads + 1) + m.cfg.n_heads)
        ∈ destBlocksFrom m k b ℓ i
  | 0, b, ℓ, i, j => fun hj => absurd hj (Nat.not_lt_zero j)
  | k + 1, b, ℓ, i, 0 => fun _ => by
    simp only [destBlocksFrom, Nat.add_zero, Nat.zero_mul]
    apply List.mem_append_left
    simp only [destBlockNodes]
    apply List.mem_append_right
    exact List.mem_singleton.mpr rfl
  | k + 1, b, ℓ, i, j + 1 => fun hj => by
    simp only [destBlocksFrom]
    apply List.mem_append_right
    have ih := destMlpNode_mem m k (b + 1)
      ((if m.cfg.parallel_attn_mlp then ℓ else ℓ + 1) + 1)
      (i + m.cfg.n_heads + 1) j (by omega)
    have e1 : b + 1 + j = b + (j + 1) := by omega
    have e2 : (if m.cfg.parallel_attn_mlp
          then (if m.cfg.parallel_attn_mlp then ℓ else ℓ + 1) + 1 +
            j * (if m.cfg.parallel_attn_mlp then 1 else 2)
          else (if m.cfg.parallel_attn_mlp then ℓ else ℓ + 1) + 1 +
            j * (if m.cfg.parallel_attn_mlp then 1 else 2) + 1) =
        (if m.cfg.parallel_attn_mlp
          then ℓ + (j + 1) * (if m.cfg.parallel_attn_mlp then 1 else 2)
          else ℓ + (j + 1) * (if m.cfg.parallel_attn_mlp then 1 else 2) + 1) := by
      cases m.cfg.parallel_attn_mlp <;> simp <;> omega
    have e3 : i + m.cfg.n_heads + 1 + j * (m.cfg.n_heads + 1) + m.cfg.n_heads =
        i + (j + 1) * (m.cfg.n_heads + 1) + m.cfg.n_heads := by ring
    rw [e1, e2, e3] at ih
    exact ih

/-- True exactly when the embedded Python function returned normally rather
than raising (an assert failure is modelled as Except.error). -/
def exceptOk {ε α : Type} : Except ε α → Bool
  | .ok _ => true
  | .error _ => false

/-- A sample 2-layer, 2-head model with 3 retained latents per layer,
sequential (non-parallel) attention and MLP, and all four capability flags
enabled. Used to instantiate hypotheses of the claim theorems. -/
def aeModelSeq : AEModel :=
  { cfg :=
      { n_layers := 2
        n_heads := 2
        use_attn_result := true
        use_attn_in := true
        use_split_qkv_input := true
        use_hook_mlp_in := true
        parallel_attn_mlp := false }
    nLatents := fun _ => 3 }

/-- The same sample model with use_split_qkv_input disabled. -/
def aeModelNoSplit : AEModel :=
  { cfg :=
      { n_layers := 2
        n_heads := 2
        use_attn_result := true
        use_attn_in := true
        use_split_qkv_input := false
        use_hook_mlp_in := true
        parallel_attn_mlp := false }
    nLatents := fun _ => 3 }

/-- C1: for every valid model configuration (n_layers layers, n_heads heads
per layer, L retained latents per layer, all four capability flags set),
factorized_src_nodes returns exactly 1 + n_layers*(n_heads + L) source nodes
and factorized_dest_nodes exactly n_layers*(n_heads + 1) + 1 destination
nodes; in both enumerations the global ordinal indices are exactly
0, 1, 2, ... in enumeration order, hence strictly increasing and unique, and
the nodes themselves are pairwise distinct (so the Python sets built from
them have these cardinalities). -/
theorem claim_C1 (m : AEModel) (L : Nat)
    (h1 : m.cfg.use_attn_result = true) (h2 : m.cfg.use_attn_in = true)
    (h3 : m.cfg.use_split_qkv_input = true) (h4 : m.cfg.use_hook_mlp_in = true)
    (hL : ∀ j, m.nLatents j = L) :
    ∃ srcs dests,
      factorized_src_nodes m = Except.ok srcs ∧
        factorized_dest_nodes m = Except.ok dests ∧
        srcs.length = 1 + m.cfg.n_layers * (m.cfg.n_heads + L) ∧
        dests.length = m.cfg.n_layers * (m.cfg.n_heads + 1) + 1 ∧
        srcs.map (fun nd => nd.idx) =
          List.range' 0 (1 + m.cfg.n_layers * (m.cfg.n_heads + L)) ∧
        dests.map (fun nd => nd.idx) =
          List.range' 0 (m.cfg.n_layers * (m.cfg.n_heads + 1) + 1) ∧
        List.Pairwise (· < ·) (srcs.map (fun nd => nd.idx)) ∧
        List.Pairwise (· < ·) (dests.map (fun nd => nd.idx)) ∧
        srcs.Nodup ∧ dests.Nodup := by
  have hsrc : (srcNodesList m).map (fun nd => nd.idx) =
      List.range' 0 (1 + m.cfg.n_layers * (m.cfg.n_heads + L)) := by
    rw [map_idx_srcNodesList, srcCountFrom_const m L hL]
  have hdest : (destNodesList m).map (fun nd => nd.idx) =
      List.range' 0 (m.cfg.n_layers * (m.cfg.n_heads + 1) + 1) :=
    map_idx_destNodesList m
  refine ⟨srcNodesList m, destNodesList m, ?_, ?_, ?_, ?_, hsrc, hdest, ?_, ?_, ?_, ?_⟩
  · simp [factorized_src_nodes, h1, h2, h3, h4]
  · simp [factorized_dest_nodes, h1, h2, h4]
  · rw [← List.length_map (srcNodesList m) (fun nd => nd.idx), hsrc,
      List.length_range']
  · rw [← List.length_map (destNodesList m) (fun nd => nd.idx), hdest,
      List.length_range']
  · rw [hsrc]
    exact List.pairwise_lt_range' 0 _
  · rw [hdest]
    exact List.pairwise_lt_range' 0 _
  · exact List.Nodup.of_map _ (by rw [hsrc]; exact List.nodup_range' 0 _)
  · exact List.Nodup.of_map _ (by rw [hdest]; exact List.nodup_range' 0 _)

/-- Witness for C1: the sample sequential model, where the counts are
1 + 2*(2+3) = 11 sources and 2*(2+1) + 1 = 7 destinations. -/
theorem claim_C1_witness :
    ∃ srcs dests,
      factorized_src_nodes aeModelSeq = Except.ok srcs ∧
        factorized_dest_nodes aeModelSeq = Except.ok dests ∧
        srcs.length = 11 ∧
        dests.length = 7 ∧
        srcs.map (fun nd => nd.idx) = List.range' 0 11 ∧
        dests.map (fun nd => nd.idx) = List.range' 0 7 ∧
        List.Pairwise (· < ·) (srcs.map (fun nd => nd.idx)) ∧
        List.Pairwise (· < ·) (dests.map (fun nd => nd.idx)) ∧
        srcs.Nodup ∧ dests.Nodup :=
  claim_C1 aeModelSeq 3 rfl rfl rfl rfl (fun _ => rfl)

/-- C5 counterexample: a model with use_split_qkv_input disabled (and the
other three flags enabled) does NOT make factorized_dest_nodes fail: the
corresponding assert is commented out in the source, so destination
enumeration succeeds. This refutes the claim that both functions fail when
any of the four flags is absent. -/
theorem claim_C5_counterexample :
    exceptOk (factorized_dest_nodes aeModelNoSplit) = true := rfl

/-- C5 (amended): factorized_src_nodes fails with an assertion error exactly
when one of the four capability flags (attention results per-head, attention
inputs per-head, split Q/K/V input, MLP input before normalization) is
absent; factorized_dest_nodes checks only three of them — it does not check
split-QKV input (the assert is commented out in the source) and succeeds
whenever the other three are present. -/
theorem claim_C5 (m : AEModel) :
    (exceptOk (factorized_src_nodes m) = true ↔
      m.cfg.use_attn_result = true ∧ m.cfg.use_attn_in = true ∧
        m.cfg.use_split_qkv_input = true ∧ m.cfg.use_hook_mlp_in = true) ∧
      (exceptOk (factorized_dest_nodes m) = true ↔
        m.cfg.use_attn_result = true ∧ m.cfg.use_attn_in = true ∧
          m.cfg.use_hook_mlp_in = true) := by
  constructor
  · cases h1 : m.cfg.use_attn_result <;> cases h2 : m.cfg.use_attn_in <;>
      cases h3 : m.cfg.use_split_qkv_input <;>
      cases h4 : m.cfg.use_hook_mlp_in <;>
      simp [factorized_src_nodes, exceptOk, h1, h2, h3, h4]
  · cases h1 : m.cfg.use_attn_result <;> cases h2 : m.cfg.use_attn_in <;>
      cases h4 : m.cfg.use_hook_mlp_in <;>
      simp [factorized_dest_nodes, exceptOk, h1, h2, h4]

/-- Witness for the amended C5 at the sample model without split-QKV input:
source enumeration fails there, destination enumeration succeeds. -/
theorem claim_C5_witness :
    (exceptOk (factorized_src_nodes aeModelNoSplit) = true ↔
      aeModelNoSplit.cfg.use_attn_result = true ∧
        aeModelNoSplit.cfg.use_attn_in = true ∧
        aeModelNoSplit.cfg.use_split_qkv_input = true ∧
        aeModelNoSplit.cfg.use_hook_mlp_in = true) ∧
      (exceptOk (factorized_dest_nodes aeModelNoSplit) = true ↔
        aeModelNoSplit.cfg.use_attn_result = true ∧
          aeModelNoSplit.cfg.use_attn_in = true ∧
          aeModelNoSplit.cfg.use_hook_mlp_in = true) :=
  claim_C5 aeModelNoSplit

/-- C6: in both enumerations the layer indices are monotonically
non-decreasing in enumeration order; the attention nodes of block bi sit at
layer A(bi) = 1 + bi * (1 when attention and MLP are parallel, else 2), and
the MLP-latent source nodes / MLP-input destination node of the same block
sit at layer A(bi) exactly when parallel_attn_mlp is true and at layer
A(bi) + 1 otherwise. -/
theorem claim_C6 (m : AEModel) (L : Nat)
    (h1 : m.cfg.use_attn_result = true) (h2 : m.cfg.use_attn_in = true)
    (h3 : m.cfg.use_split_qkv_input = true) (h4 : m.cfg.use_hook_mlp_in = true)
    (hL : ∀ j, m.nLatents j = L) :
    ∃ srcs dests,
      factorized_src_nodes m = Except.ok srcs ∧
        factorized_dest_nodes m = Except.ok dests ∧
        List.Pairwise (· ≤ ·) (srcs.map (fun nd => nd.layer)) ∧
        List.Pairwise (· ≤ ·) (dests.map (fun nd => nd.layer)) ∧
        (∀ bi hd, bi < m.cfg.n_layers → hd < m.cfg.n_heads →
          srcAttnNode bi hd
              (1 + bi * (if m.cfg.parallel_attn_mlp then 1 else 2))
              (1 + bi * (m.cfg.n_heads + L) + hd) ∈ srcs) ∧
        (∀ bi lt, bi < m.cfg.n_layers → lt < L →
          srcLatentNode bi lt
              (if m.cfg.parallel_attn_mlp
                then 1 + bi * (if m.cfg.parallel_attn_mlp then 1 else 2)
                else 1 + bi * (if m.cfg.parallel_attn_mlp then 1 else 2) + 1)
              (1 + bi * (m.cfg.n_heads + L) + m.cfg.n_heads + lt) ∈ srcs) ∧
        (∀ bi hd, bi < m.cfg.n_layers → hd < m.cfg.n_heads →
          destAttnNode bi hd
              (1 + bi * (if m.cfg.parallel_attn_mlp then 1 else 2))
              (bi * (m.cfg.n_heads + 1) + hd) ∈ dests) ∧
        (∀ bi, bi < m.cfg.n_layers →
          destMlpNode bi
              (if m.cfg.parallel_attn_mlp
                then 1 + bi * (if m.cfg.parallel_attn_mlp then 1 else 2)
                else 1 + bi * (if m.cfg.parallel_attn_mlp then 1 else 2) + 1)
              (bi * (m.cfg.n_heads + 1) + m.cfg.n_heads) ∈ dests) := by
  refine ⟨srcNodesList m, destNodesList m, ?_, ?_, ?_, ?_, ?_, ?_, ?_, ?_⟩
  · simp [factorized_src_nodes, h1, h2, h3, h4]
  · simp [factorized_dest_nodes, h1, h2, h4]
  · exact pairwise_layer_srcNodesList m
  · exact pairwise_layer_destNodesList m
  · intro bi hd hbi hhd
    have h5 := srcAttnNode_mem m L hL m.cfg.n_layers 0 1 1 bi hd hbi hhd
    rw [Nat.zero_add] at h5
    exact List.mem_cons_of_mem _ h5
  · intro bi lt hbi hlt
    have h5 := srcLatentNode_mem m L hL m.cfg.n_layers 0 1 1 bi lt hbi hlt
    rw [Nat.zero_add] at h5
    exact List.mem_cons_of_mem _ h5
  · intro bi hd hbi hhd
    have h5 := destAttnNode_mem m m.cfg.n_layers 0 1 0 bi hd hbi hhd
    rw [Nat.zero_add, Nat.zero_add] at h5
    exact h5
  · intro bi hbi
    have h5 := destMlpNode_mem m m.cfg.n_layers 0 1 0 bi hbi
    rw [Nat.zero_add, Nat.zero_add] at h5
    exact h5

/-- Witness for C6: the sample sequential model; since parallel_attn_mlp is
false, the MLP nodes of block bi sit one layer above the attention nodes. -/
theorem claim_C6_witness :
    ∃ srcs dests,
      factorized_src_nodes aeModelSeq = Except.ok srcs ∧
        factorized_dest_nodes aeModelSeq = Except.ok dests ∧
        List.Pairwise (· ≤ ·) (srcs.map (fun nd => nd.layer)) ∧
        List.Pairwise (· ≤ ·) (dests.map (fun nd => nd.layer)) ∧
        (∀ bi hd, bi < 2 → hd < 2 →
          srcAttnNode bi hd (1 + bi * 2) (1 + bi * 5 + hd) ∈ srcs) ∧
        (∀ bi lt, bi < 2 → lt < 3 →
          srcLatentNode bi lt (1 + bi * 2 + 1) (1 + bi * 5 + 2 + lt) ∈ srcs) ∧
        (∀ bi hd, bi < 2 → hd < 2 →
          destAttnNode bi hd (1 + bi * 2) (bi * 3 + hd) ∈ dests) ∧
        (∀ bi, bi < 2 →
          destMlpNode bi (1 + bi * 2 + 1) (bi * 3 + 2) ∈ dests) :=
  claim_C6 aeModelSeq 3 rfl rfl rfl rfl (fun _ => rfl)

/-- Number of latents with nonzero cumulative activation:
(sae.latent_total_act > 0).sum(dim=-1) in _prune_latents_with_dataset, for a
one-dimensional activation-count tensor modelled as a list of counts. -/
def countActivated (latent_total_act : List Nat) : Nat :=
  (latent_total_act.filter (fun a => decide (0 < a))).length

/-- Python boolean-or as used in max_latents = max_latents or activated_count:
None and 0 are falsy, any other int is returned unchanged. -/
def pyOr (v : Option Nat) (d : Nat) : Nat :=
  match v with
  | none => d
  | some n => if n = 0 then d else n

/-- Embedding of the retention loop of _prune_latents_with_dataset
(autoencoder_transformer.py lines 66-75) restricted to the retained-count
bookkeeping: each autoencoder is represented by its latent_total_act vector,
and the returned list is latent_counts, whose entry for each autoencoder is
max_idx = min(max_latents, activated_count) — the length of idxs_to_keep and
hence the retained latent count after sae.prune_latents (max_idx never
exceeds the latent count, so the take is never clamped). The statement
max_latents = max_latents or activated_count in the source rebinds the
loop-carried variable, which this embedding reproduces by threading
some ml into the recursive call. -/
def latent_counts (max_latents : Option Nat) : List (List Nat) → List Nat
  | [] => []
  | acts :: rest =>
    let activated_count := countActivated acts
    let ml := pyOr max_latents activated_count
    min ml activated_count :: latent_counts (some ml) rest

/-- C3 evaluated at the failing input: two autoencoders whose activation
vectors are [1] (one activated latent) and [1, 1] (two activated latents),
called with max_latents = None. The claim (and the spec) require retained
counts [1, 2] — each autoencoder keeps its own activated count — but the
code writes the first autoencoder's activated count back into max_latents,
so the second autoencoder is capped at 1 and the code produces [1, 1]. -/
theorem claim_C3 :
    latent_counts none [[1], [1, 1]] = [1, 1] ∧
      countActivated [1] = 1 ∧ countActivated [1, 1] = 2 := by decide

/-- The activation-capture point selector of autoencoder_model: the Python
type AutoencoderInput is the literal-string type
"mlp_post_act" | "resid_delta_mlp". -/
inductive AutoencoderInput where
  | mlp_post_act
  | resid_delta_mlp
deriving DecidableEq, Repr

/-- The Python string value of an AutoencoderInput literal. -/
def AutoencoderInput.str : AutoencoderInput → String
  | .mlp_post_act => "mlp_post_act"
  | .resid_delta_mlp => "resid_delta_mlp"

/-- The value stored at a hook attribute of a transformer block after
autoencoder_model runs: the original hook object, a loaded sparse
autoencoder (identified by its layer index), or a plain Python string that
was setattr-ed over the hook. -/
inductive HookSlot where
  | originalHook : HookSlot
  | saeObject (layer_idx : Nat) : HookSlot
  | stringValue (s : String) : HookSlot
deriving DecidableEq, Repr

/-- The two hook attributes of one transformer block that autoencoder_model
touches: blocks[i].mlp.hook_post and blocks[i].hook_mlp_out. -/
structure TLBlock where
  mlp_hook_post : HookSlot
  hook_mlp_out : HookSlot
deriving DecidableEq, Repr

/-- Embedding of the per-layer loop body of autoencoder_model
(autoencoder_transformer.py lines 148-158). For sae_input == "mlp_post_act"
the source executes
setattr(model.blocks[layer_idx].mlp, "hook_post", sae_input)
— assigning the STRING sae_input, not the loaded autoencoder sae; for
"resid_delta_mlp" it executes
setattr(model.blocks[layer_idx], "hook_mlp_out", sae), installing the
autoencoder object. -/
def autoencoder_model_layer (sae_input : AutoencoderInput) (layer_idx : Nat)
    (b : TLBlock) : TLBlock :=
  match sae_input with
  | .mlp_post_act => { b with mlp_hook_post := .stringValue sae_input.str }
  | .resid_delta_mlp => { b with hook_mlp_out := .saeObject layer_idx }

/-- The for-layer_idx-in-range(n_layers) loop of autoencoder_model applied to
the block list of the (deep-copied) model. -/
def autoencoder_model_blocks (sae_input : AutoencoderInput)
    (blocks : List TLBlock) : List TLBlock :=
  ((List.range blocks.length).zip blocks).map
    (fun p => autoencoder_model_layer sae_input p.1 p.2)

/-- A block whose two hook attributes still hold the original hook objects. -/
def origBlock : TLBlock :=
  { mlp_hook_post := .originalHook, hook_mlp_out := .originalHook }

/-- C7 evaluated at the failing input: with sae_input = "mlp_post_act" the
code stores the string "mlp_post_act" in blocks[0].mlp.hook_post — not the
loaded autoencoder object, which a HookSlot.saeObject value (as produced by
the "resid_delta_mlp" branch) would represent — so forward passes cannot
route the MLP activation through the autoencoder at that capture point. -/
theorem claim_C7 :
    autoencoder_model_blocks AutoencoderInput.mlp_post_act [origBlock] =
        [{ mlp_hook_post := HookSlot.stringValue "mlp_post_act"
           hook_mlp_out := HookSlot.originalHook }] ∧
      autoencoder_model_blocks AutoencoderInput.resid_delta_mlp [origBlock] =
        [{ mlp_hook_post := HookSlot.originalHook
           hook_mlp_out := HookSlot.saeObject 0 }] ∧
      ∀ li, HookSlot.stringValue "mlp_post_act" ≠ HookSlot.saeObject li :=
  ⟨by decide, by decide, fun li h => HookSlot.noConfusion h⟩

/-- ActType from auto_circuit.types as used by run_pruned: the recognized
activation kinds clean, corrupt and zero. -/
inductive ActType where
  | CLEAN
  | CORRUPT
  | ZERO
deriving DecidableEq, Repr

/-- ExperimentType from auto_circuit.types: which logical input feeds the
model and which feeds the patch baseline. -/
structure ExperimentType where
  input_type : ActType
  patch_type : ActType
deriving DecidableEq, Repr

/-- Edge from auto_circuit.types as used by run_pruned: identified by its
endpoint ordinals, and carrying the index into its patch mask that
edge.patch_mask(model).data[edge.patch_idx] = 1 writes. -/
structure Edge where
  src_idx : Nat
  dest_idx : Nat
  patch_idx : Nat
deriving DecidableEq, Repr

/-- A PromptPairBatch: a clean and a corrupt input tensor. -/
structure Batch (Input : Type) where
  clean : Input
  corrupt : Input

/-- The model operations run_pruned invokes, kept opaque (the transformer
forward pass and the hook machinery are external dependencies): forward is
the plain call model(input) outside any patching context; out_slice models
indexing with model.out_slice; get_sorted_src_outs returns the activation at
every source node (keyed by source ordinal); zeros_like models t.zeros_like;
forward_patched is the call model(input) inside the patch_mode context,
determined by the baseline source activations and the list of edges whose
patch-mask entry has been set to 1, in activation order. -/
structure PruneModel (Input Output : Type) where
  forward : Input → Output
  out_slice : Output → Output
  get_sorted_src_outs : Input → List (Nat × Output)
  zeros_like : Output → Output
  forward_patched : List (Nat × Output) → List Edge → Input → Output

/-- One observable step of run_pruned while processing a single batch, in
program order: recording an output tensor under an edge-count key, computing
the patch baseline (get_sorted_src_outs plus the zero-tensor substitution),
entering or leaving the patch_mode context (entered with reset_mask=True, so
every mask entry is 0 at enterPatchMode), and writing v into an edge's
patch-mask entry. -/
inductive TraceEvent (Output : Type) where
  | recordOut (n_edge : Nat) (out : Output)
  | computeBaseline
  | enterPatchMode
  | setMask (e : Edge) (v : Nat)
  | exitPatchMode
deriving DecidableEq, Repr

/-- Lines 34-39 of prune.py: select the batch input from the experiment
input type; anything other than CLEAN or CORRUPT raises NotImplementedError. -/
def select_batch_input {Input : Type} (experiment_type : ExperimentType)
    (batch : Batch Input) : Except String Input :=
  if experiment_type.input_type = ActType.CLEAN then .ok batch.clean
  else if experiment_type.input_type = ActType.CORRUPT then .ok batch.corrupt
  else .error "NotImplementedError"

/-- Lines 45-53 of prune.py: compute the patch baseline activations at every
source node — clean activations, corrupt activations, or zero tensors shaped
like the clean activations. The final branch embeds the
assert experiment_type.patch_type == ActType.ZERO statement; ActType has
exactly the three recognized members, so that assert can never fire. -/
def select_patch_outs {Input Output : Type} (M : PruneModel Input Output)
    (experiment_type : ExperimentType) (batch : Batch Input) :
    Except String (List (Nat × Output)) :=
  if experiment_type.patch_type = ActType.CLEAN then
    .ok (M.get_sorted_src_outs batch.clean)
  else if experiment_type.patch_type = ActType.CORRUPT then
    .ok (M.get_sorted_src_outs batch.corrupt)
  else if experiment_type.patch_type = ActType.ZERO then
    .ok ((M.get_sorted_src_outs batch.clean).map
      (fun p => (p.1, M.zeros_like p.2)))
  else .error "AssertionError"

/-- Lines 59-66 of prune.py: iterate the sorted edge list once; for each
edge write 1 into its patch-mask entry, and when the running count n_edge is
a requested checkpoint run the model under the patch and record the sliced,
detached output. edge_idx is the enumerate counter and activated the list of
edges patched in so far. -/
def edge_loop {Input Output : Type} (M : PruneModel Input Output)
    (input : Input) (test_edge_counts : List Nat)
    (patch_outs : List (Nat × Output)) :
    List (Edge × Int) → Nat → List Edge → List (TraceEvent Output)
  | [], _, _ => []
  | (edge, _) :: rest, edge_idx, activated =>
    let n_edge := edge_idx + 1
    let activated2 := activated ++ [edge]
    TraceEvent.setMask edge 1 ::
      ((if n_edge ∈ test_edge_counts then
          [TraceEvent.recordOut n_edge
            (M.out_slice (M.forward_patched patch_outs activated2 input))]
        else []) ++
        edge_loop M input test_edge_counts patch_outs rest n_edge activated2)

/-- The body of the per-batch loop of run_pruned (prune.py lines 33-71), as
the ordered trace of its observable steps: input selection; the checkpoint-0
recording (lines 41-43), which happens before the patch baseline is computed
(lines 45-55) and before patch_mode is entered (line 58); then the edge loop
inside the patch_mode context. -/
def run_batch {Input Output : Type} (M : PruneModel Input Output)
    (experiment_type : ExperimentType) (test_edge_counts : List Nat)
    (sorted_scores : List (Edge × Int)) (batch : Batch Input) :
    Except String (List (TraceEvent Output)) :=
  match select_batch_input experiment_type batch with
  | .error e => .error e
  | .ok input =>
    match select_patch_outs M experiment_type batch with
    | .error e => .error e
    | .ok patch_outs =>
      .ok ((if 0 ∈ test_edge_counts then
              [TraceEvent.recordOut 0 (M.out_slice (M.forward input))]
            else []) ++
        TraceEvent.computeBaseline ::
          TraceEvent.enterPatchMode ::
          (edge_loop M input test_edge_counts patch_outs sorted_scores 0 [] ++
            [TraceEvent.exitPatchMode]))

/-- The for-batch-in-data_loader loop of run_pruned: a raised exception
aborts the whole run, later batches are processed only on success. -/
def run_batches {Input Output : Type} (M : PruneModel Input Output)
    (experiment_type : ExperimentType) (test_edge_counts : List Nat)
    (sorted_scores : List (Edge × Int)) :
    List (Batch Input) → Except String (List (List (TraceEvent Output)))
  | [] => .ok []
  | b :: bs =>
    match run_batch M experiment_type test_edge_counts sorted_scores b with
    | .error e => .error e
    | .ok tr =>
      match run_batches M experiment_type test_edge_counts sorted_scores bs with
      | .error e => .error e
      | .ok rest => .ok (tr :: rest)

/-- Line 30 of prune.py:
prune_scores = dict(sorted(prune_scores.items(), key=lambda x: x[1],
reverse=True)). Python's sorted is a stable sort, here by descending score;
insertion sort with the relation "second component at least as large" is
exactly that stable descending sort. The association list carries the dict's
iteration order, and its keys (the edges) are unique because prune_scores is
a dict. -/
def sorted_prune_scores (prune_scores : List (Edge × Int)) :
    List (Edge × Int) :=
  prune_scores.insertionSort (fun a b => b.2 ≤ a.2)

/-- Embedding of run_pruned (prune.py lines 19-72): sort the scores once,
then process every batch against that one shared sorted list, producing each
batch's trace of observable steps. An exception yields Except.error: the run
aborts with no partial results. -/
def run_pruned {Input Output : Type} (M : PruneModel Input Output)
    (data_loader : List (Batch Input)) (experiment_type : ExperimentType)
    (test_edge_counts : List Nat) (prune_scores : List (Edge × Int)) :
    Except String (List (List (TraceEvent Output))) :=
  run_batches M experiment_type test_edge_counts
    (sorted_prune_scores prune_scores) data_loader

/-- defaultdict(list) append: add v under key k, creating the key on first
use, preserving insertion order of keys. -/
def addOut {Output : Type} : List (Nat × List Output) → Nat → Output →
    List (Nat × List Output)
  | [], k, v => [(k, [v])]
  | (k2, vs) :: rest, k, v =>
    if k2 = k then (k2, vs ++ [v]) :: rest else (k2, vs) :: addOut rest k v

/-- Folding the recordOut events of a trace into the pruned_outs mapping. -/
def collect_outs {Output : Type} : List (TraceEvent Output) →
    List (Nat × List Output) → List (Nat × List Output)
  | [], acc => acc
  | TraceEvent.recordOut k v :: rest, acc => collect_outs rest (addOut acc k v)
  | _ :: rest, acc => collect_outs rest acc

/-- The pruned_outs mapping returned by run_pruned, reconstructed from the
batch traces: each recordOut event appends its tensor to the list under its
edge-count key, in program order across batches. -/
def pruned_outs {Output : Type} (traces : List (List (TraceEvent Output))) :
    List (Nat × List Output) :=
  collect_outs traces.flatten []

/-- The patch-mask writes of a trace, in order. -/
def maskEvents {Output : Type} : List (TraceEvent Output) → List (Edge × Nat)
  | [] => []
  | TraceEvent.setMask e v :: rest => (e, v) :: maskEvents rest
  | _ :: rest => maskEvents rest

/-- The edge-count keys recorded in a trace, in order. -/
def recordKeys {Output : Type} : List (TraceEvent Output) → List Nat
  | [] => []
  | TraceEvent.recordOut k _ :: rest => k :: recordKeys rest
  | _ :: rest => recordKeys rest

section TraceLemmas

variable {Input Output : Type}

@[simp] theorem maskEvents_nil :
    maskEvents ([] : List (TraceEvent Output)) = [] := rfl

@[simp] theorem maskEvents_setMask (e : Edge) (v : Nat)
    (rest : List (TraceEvent Output)) :
    maskEvents (TraceEvent.setMask e v :: rest) = (e, v) :: maskEvents rest := rfl

@[simp] theorem maskEvents_recordOut (k : Nat) (o : Output)
    (rest : List (TraceEvent Output)) :
    maskEvents (TraceEvent.recordOut k o :: rest) = maskEvents rest := rfl

@[simp] theorem maskEvents_computeBaseline (rest : List (TraceEvent Output)) :
    maskEvents (TraceEvent.computeBaseline :: rest) = maskEvents rest := rfl

@[simp] theorem maskEvents_enterPatchMode (rest : List (TraceEvent Output)) :
    maskEvents (TraceEvent.enterPatchMode :: rest) = maskEvents rest := rfl

@[simp] theorem maskEvents_exitPatchMode (rest : List (TraceEvent Output)) :
    maskEvents (TraceEvent.exitPatchMode :: rest) = maskEvents rest := rfl

@[simp] theorem maskEvents_append :
    ∀ l1 l2 : List (TraceEvent Output),
      maskEvents (l1 ++ l2) = maskEvents l1 ++ maskEvents l2
  | [], _ => rfl
  | ev :: l1, l2 => by
    cases ev <;> simp [maskEvents_append l1 l2]

@[simp] theorem recordKeys_nil :
    recordKeys ([] : List (TraceEvent Output)) = [] := rfl

@[simp] theorem recordKeys_recordOut (k : Nat) (o : Output)
    (rest : List (TraceEvent Output)) :
    recordKeys (TraceEvent.recordOut k o :: rest) = k :: recordKeys rest := rfl

@[simp] theorem recordKeys_setMask (e : Edge) (v : Nat)
    (rest : List (TraceEvent Output)) :
    recordKeys (TraceEvent.setMask e v :: rest) = recordKeys rest := rfl

@[simp] theorem recordKeys_computeBaseline (rest : List (TraceEvent Output)) :
    recordKeys (TraceEvent.computeBaseline :: rest) = recordKeys rest := rfl

@[simp] theorem recordKeys_enterPatchMode (rest : List (TraceEvent Output)) :
    recordKeys (TraceEvent.enterPatchMode :: rest) = recordKeys rest := rfl

@[simp] theorem recordKeys_exitPatchMode (rest : List (TraceEvent Output)) :
    recordKeys (TraceEvent.exitPatchMode :: rest) = recordKeys rest := rfl

@[simp] theorem recordKeys_append :
    ∀ l1 l2 : List (TraceEvent Output),
      recordKeys (l1 ++ l2) = recordKeys l1 ++ recordKeys l2
  | [], _ => rfl
  | ev :: l1, l2 => by
    cases ev <;> simp [recordKeys_append l1 l2]

theorem mem_recordKeys_iff (k : Nat) :
    ∀ evs : List (TraceEvent Output),
      k ∈ recordKeys evs ↔ ∃ v, TraceEvent.recordOut k v ∈ evs
  | [] => by simp
  | ev :: evs => by
    cases ev with
    | recordOut n o =>
      simp only [recordKeys_recordOut, List.mem_cons]
      constructor
      · rintro (rfl | hk)
        · exact ⟨o, Or.inl rfl⟩
        · obtain ⟨v, hv⟩ := (mem_recordKeys_iff k evs).mp hk
          exact ⟨v, Or.inr hv⟩
      · rintro ⟨v, hv | hv⟩
        · injection hv with h1 h2
          exact Or.inl h1
        · exact Or.inr ((mem_recordKeys_iff k evs).mpr ⟨v, hv⟩)
    | computeBaseline => simp [mem_recordKeys_iff k evs]
    | enterPatchMode => simp [mem_recordKeys_iff k evs]
    | setMask e v => simp [mem_recordKeys_iff k evs]
    | exitPatchMode => simp [mem_recordKeys_iff k evs]

theorem maskEvents_edge_loop (M : PruneModel Input Output) (input : Input)
    (tc : List Nat) (po : List (Nat × Output)) :
    ∀ (rest : List (Edge × Int)) (ei : Nat) (act : List Edge),
      maskEvents (edge_loop M input tc po rest ei act) =
        rest.map (fun p => (p.1, 1))
  | [], _, _ => rfl
  | (e, s) :: rest, ei, act => by
    simp only [edge_loop, maskEvents_setMask, maskEvents_append,
      List.map_cons, maskEvents_edge_loop M input tc po rest]
    split <;> simp

theorem recordKeys_edge_loop (M : PruneModel Input Output) (input : Input)
    (tc : List Nat) (po : List (Nat × Output)) :
    ∀ (rest : List (Edge × Int)) (ei : Nat) (act : List Edge),
      ∀ k ∈ recordKeys (edge_loop M input tc po rest ei act),
        ei + 1 ≤ k ∧ k ≤ ei + rest.length
  | [], _, _ => by simp [edge_loop]
  | (e, s) :: rest, ei, act => by
    intro k hk
    simp only [edge_loop, recordKeys_setMask, recordKeys_append,
      List.mem_append] at hk
    rcases hk with hk | hk
    · have : k = ei + 1 := by
        rcases Decidable.em (ei + 1 ∈ tc) with h | h
        · rw [if_pos h] at hk
          simpa using hk
        · rw [if_neg h] at hk
          simp at hk
      simp [this]
    · have := recordKeys_edge_loop M input tc po rest (ei + 1) (act ++ [e]) k hk
      simp only [List.length_cons]
      omega

end TraceLemmas

section SortLemmas

theorem pairwise_sorted_prune_scores (prune_scores : List (Edge × Int)) :
    List.Pairwise (fun a b => b.2 ≤ a.2) (sorted_prune_scores prune_scores) := by
  haveI : IsTotal (Edge × Int) (fun a b => b.2 ≤ a.2) :=
    ⟨fun a b => le_total b.2 a.2⟩
  haveI : IsTrans (Edge × Int) (fun a b => b.2 ≤ a.2) :=
    ⟨fun a b c h1 h2 => le_trans h2 h1⟩
  exact List.sorted_insertionSort _ prune_scores

theorem perm_sorted_prune_scores (prune_scores : List (Edge × Int)) :
    (sorted_prune_scores prune_scores).Perm prune_scores :=
  List.perm_insertionSort _ prune_scores

theorem length_sorted_prune_scores (prune_scores : List (Edge × Int)) :
    (sorted_prune_scores prune_scores).length = prune_scores.length :=
  (perm_sorted_prune_scores prune_scores).length_eq

theorem filter_orderedInsert_score (s : Int) (a : Edge × Int) :
    ∀ l : List (Edge × Int),
      (List.orderedInsert (fun x y => y.2 ≤ x.2) a l).filter
          (fun p => decide (p.2 = s)) =
        if a.2 = s then a :: l.filter (fun p => decide (p.2 = s))
        else l.filter (fun p => decide (p.2 = s))
  | [] => by
    simp only [List.orderedInsert, List.filter]
    by_cases has : a.2 = s <;> simp [has]
  | b :: l => by
    simp only [List.orderedInsert]
    by_cases hab : b.2 ≤ a.2
    · rw [if_pos hab]
      by_cases has : a.2 = s <;> simp [has, List.filter]
    · rw [if_neg hab]
      have hlt : a.2 < b.2 := lt_of_not_le hab
      by_cases has : a.2 = s
      · have hbs : ¬(b.2 = s) := by
          intro hbs2
          rw [has] at hlt
          rw [hbs2] at hlt
          exact lt_irrefl s hlt
        simp [List.filter, hbs, has, filter_orderedInsert_score s a l]
      · by_cases hbs : b.2 = s <;>
          simp [List.filter, hbs, has, filter_orderedInsert_score s a l]

theorem filter_sorted_prune_scores (s : Int) :
    ∀ prune_scores : List (Edge × Int),
      (sorted_prune_scores prune_scores).filter (fun p => decide (p.2 = s)) =
        prune_scores.filter (fun p => decide (p.2 = s))
  | [] => rfl
  | a :: l => by
    have ih := filter_sorted_prune_scores s l
    simp only [sorted_prune_scores] at ih ⊢
    simp only [List.insertionSort]
    rw [filter_orderedInsert_score]
    by_cases has : a.2 = s <;> simp [has, List.filter, ih]

theorem count_pair_map (e : Edge) :
    ∀ l : List (Edge × Int),
      ((l.map (fun p => (p.1, (1 : Nat)))).count (e, 1)) =
        (l.map Prod.fst).count e
  | [] => rfl
  | p :: l => by
    simp only [List.map_cons, List.count_cons, count_pair_map e l,
      Prod.mk.injEq]
    by_cases hp : p.1 = e <;> simp [hp]

end SortLemmas

section RunLemmas

variable {Input Output : Type}

theorem select_patch_outs_ok (M : PruneModel Input Output)
    (et : ExperimentType) (b : Batch Input) :
    ∃ po, select_patch_outs M et b = Except.ok po := by
  cases h : et.patch_type <;> simp [select_patch_outs, h]

theorem run_batch_shape (M : PruneModel Input Output) (et : ExperimentType)
    (tc : List Nat) (S : List (Edge × Int)) (b : Batch Input) (input : Input)
    (po : List (Nat × Output))
    (hin : select_batch_input et b = Except.ok input)
    (hpo : select_patch_outs M et b = Except.ok po) :
    run_batch M et tc S b = Except.ok
      ((if 0 ∈ tc then
          [TraceEvent.recordOut 0 (M.out_slice (M.forward input))]
        else []) ++
        TraceEvent.computeBaseline ::
          TraceEvent.enterPatchMode ::
          (edge_loop M input tc po S 0 [] ++ [TraceEvent.exitPatchMode])) := by
  unfold run_batch
  rw [hin, hpo]

theorem run_batch_ok_inv (M : PruneModel Input Output) (et : ExperimentType)
    (tc : List Nat) (S : List (Edge × Int)) (b : Batch Input)
    (tr : List (TraceEvent Output)) (h : run_batch M et tc S b = Except.ok tr) :
    ∃ input po,
      select_batch_input et b = Except.ok input ∧
        select_patch_outs M et b = Except.ok po ∧
        tr = (if 0 ∈ tc then
                [TraceEvent.recordOut 0 (M.out_slice (M.forward input))]
              else []) ++
          TraceEvent.computeBaseline ::
            TraceEvent.enterPatchMode ::
            (edge_loop M input tc po S 0 [] ++ [TraceEvent.exitPatchMode]) := by
  cases hin : select_batch_input et b with
  | error e =>
    unfold run_batch at h
    rw [hin] at h
    exact absurd h (by simp)
  | ok input =>
    cases hpo : select_patch_outs M et b with
    | error e =>
      unfold run_batch at h
      rw [hin, hpo] at h
      exact absurd h (by simp)
    | ok po =>
      unfold run_batch at h
      rw [hin, hpo] at h
      injection h with h2
      exact ⟨input, po, rfl, rfl, h2.symm⟩

theorem run_batches_cons_inv {M : PruneModel Input Output}
    {et : ExperimentType} {tc : List Nat} {S : List (Edge × Int)}
    {b : Batch Input} {bs : List (Batch Input)}
    {traces : List (List (TraceEvent Output))}
    (h : run_batches M et tc S (b :: bs) = Except.ok traces) :
    ∃ tr rest, run_batch M et tc S b = Except.ok tr ∧
      run_batches M et tc S bs = Except.ok rest ∧ traces = tr :: rest := by
  cases h1 : run_batch M et tc S b with
  | error e =>
    unfold run_batches at h
    rw [h1] at h
    exact absurd h (by simp)
  | ok tr =>
    cases h2 : run_batches M et tc S bs with
    | error e =>
      unfold run_batches at h
      rw [h1, h2] at h
      exact absurd h (by simp)
    | ok rest =>
      unfold run_batches at h
      rw [h1, h2] at h
      injection h with h3
      exact ⟨tr, rest, rfl, rfl, h3.symm⟩

theorem run_batches_mem (M : PruneModel Input Output) (et : ExperimentType)
    (tc : List Nat) (S : List (Edge × Int)) :
    ∀ (bs : List (Batch Input)) (traces : List (List (TraceEvent Output))),
      run_batches M et tc S bs = Except.ok traces →
      ∀ tr ∈ traces, ∃ b2 ∈ bs, run_batch M et tc S b2 = Except.ok tr
  | [], traces => fun h tr htr => by
    unfold run_batches at h
    injection h with h2
    rw [← h2] at htr
    simp at htr
  | b :: bs, traces => fun h tr htr => by
    obtain ⟨tr2, rest, h1, h2, rfl⟩ := run_batches_cons_inv h
    rcases List.mem_cons.mp htr with rfl | htr2
    · exact ⟨b, List.mem_cons_self b bs, h1⟩
    · obtain ⟨b2, hb2, h3⟩ := run_batches_mem M et tc S bs rest h2 tr htr2
      exact ⟨b2, List.mem_cons_of_mem b hb2, h3⟩

theorem run_batches_length_get (M : PruneModel Input Output)
    (et : ExperimentType) (tc : List Nat) (S : List (Edge × Int)) :
    ∀ (bs : List (Batch Input)) (traces : List (List (TraceEvent Output))),
      run_batches M et tc S bs = Except.ok traces →
      traces.length = bs.length ∧
        ∀ i (hi : i < bs.length) (hj : i < traces.length),
          run_batch M et tc S (bs.get ⟨i, hi⟩) =
            Except.ok (traces.get ⟨i, hj⟩)
  | [], traces => fun h => by
    unfold run_batches at h
    injection h with h2
    refine ⟨by simp [← h2], ?_⟩
    intro i hi
    exact absurd hi (Nat.not_lt_zero i)
  | b :: bs, traces => fun h => by
    obtain ⟨tr, rest, h1, h2, rfl⟩ := run_batches_cons_inv h
    obtain ⟨ihlen, ihget⟩ := run_batches_length_get M et tc S bs rest h2
    refine ⟨by simp [ihlen], ?_⟩
    intro i hi hj
    cases i with
    | zero => simpa using h1
    | succ i2 =>
      have hi2 : i2 < bs.length := by simpa using hi
      have hj2 : i2 < rest.length := by simpa using hj
      simpa using ihget i2 hi2 hj2

theorem run_batch_ok (M : PruneModel Input Output) (et : ExperimentType)
    (tc : List Nat) (S : List (Edge × Int)) (b : Batch Input)
    (hin : et.input_type = ActType.CLEAN ∨ et.input_type = ActType.CORRUPT) :
    ∃ tr, run_batch M et tc S b = Except.ok tr := by
  have hsel : ∃ input, select_batch_input et b = Except.ok input := by
    rcases hin with h | h <;> simp [select_batch_input, h]
  obtain ⟨input, hin2⟩ := hsel
  obtain ⟨po, hpo⟩ := select_patch_outs_ok M et b
  exact ⟨_, run_batch_shape M et tc S b input po hin2 hpo⟩

theorem run_batches_ok (M : PruneModel Input Output) (et : ExperimentType)
    (tc : List Nat) (S : List (Edge × Int))
    (hin : et.input_type = ActType.CLEAN ∨ et.input_type = ActType.CORRUPT) :
    ∀ bs : List (Batch Input),
      ∃ traces, run_batches M et tc S bs = Except.ok traces
  | [] => ⟨[], rfl⟩
  | b :: bs => by
    obtain ⟨tr, h1⟩ := run_batch_ok M et tc S b hin
    obtain ⟨rest, h2⟩ := run_batches_ok M et tc S hin bs
    refine ⟨tr :: rest, ?_⟩
    unfold run_batches
    rw [h1, h2]

theorem lookup_addOut_ne (k k2 : Nat) (v : Output) (hne : k2 ≠ k) :
    ∀ acc : List (Nat × List Output),
      (addOut acc k2 v).lookup k = acc.lookup k
  | [] => by
    have hb : (k == k2) = false := beq_eq_false_iff_ne.mpr (Ne.symm hne)
    simp [addOut, List.lookup, hb]
  | (k3, vs) :: rest => by
    by_cases h3 : k3 = k2
    · rw [addOut, if_pos h3]
      have hkk3 : (k == k3) = false :=
        beq_eq_false_iff_ne.mpr (fun he => hne ((he.trans h3).symm))
      simp [List.lookup, hkk3]
    · rw [addOut, if_neg h3]
      by_cases hk3 : k3 = k
      · have hb : (k == k3) = true := beq_iff_eq.mpr hk3.symm
        simp [List.lookup, hb]
      · have hb : (k == k3) = false := beq_eq_false_iff_ne.mpr (Ne.symm hk3)
        simp [List.lookup, hb, lookup_addOut_ne k k2 v hne rest]

theorem lookup_collect_none (k : Nat) :
    ∀ (evs : List (TraceEvent Output)) (acc : List (Nat × List Output)),
      k ∉ recordKeys evs → acc.lookup k = none →
      (collect_outs evs acc).lookup k = none
  | [], acc => fun _ hacc => hacc
  | ev :: evs, acc => fun hk hacc => by
    cases ev with
    | recordOut k2 o =>
      have hk2 : k2 ≠ k := by
        intro he
        apply hk
        rw [recordKeys_recordOut, he]
        exact List.mem_cons_self k _
      have hk3 : k ∉ recordKeys evs := by
        intro he
        exact hk (by rw [recordKeys_recordOut]; exact List.mem_cons_of_mem _ he)
      have : (addOut acc k2 o).lookup k = none := by
        rw [lookup_addOut_ne k k2 o hk2 acc]
        exact hacc
      exact lookup_collect_none k evs (addOut acc k2 o) hk3 this
    | computeBaseline => exact lookup_collect_none k evs acc (by simpa using hk) hacc
    | enterPatchMode => exact lookup_collect_none k evs acc (by simpa using hk) hacc
    | setMask e v => exact lookup_collect_none k evs acc (by simpa using hk) hacc
    | exitPatchMode => exact lookup_collect_none k evs acc (by simpa using hk) hacc

end RunLemmas

/-- C2: on every successful invocation of run_pruned, the edge list is
sorted by prune score exactly once — there is one sorted list, computed from
prune_scores before the batch loop, and every batch's sequence of patch-mask
writes follows exactly that list; the sorted list is descending in score, a
permutation of the input, and stable (for every score value the sublist of
edges with that score keeps the original iteration order); and within one
batch every edge of prune_scores has its patch-mask entry written exactly
once, always with the value 1 — never reset to 0. -/
theorem claim_C2 {Input Output : Type} (M : PruneModel Input Output)
    (data_loader : List (Batch Input)) (experiment_type : ExperimentType)
    (test_edge_counts : List Nat) (prune_scores : List (Edge × Int))
    (traces : List (List (TraceEvent Output)))
    (hok : run_pruned M data_loader experiment_type test_edge_counts
        prune_scores = Except.ok traces)
    (hnd : (prune_scores.map Prod.fst).Nodup) :
    (∀ tr ∈ traces,
        maskEvents tr =
          (sorted_prune_scores prune_scores).map (fun p => (p.1, 1))) ∧
      List.Pairwise (fun a b => b.2 ≤ a.2)
        (sorted_prune_scores prune_scores) ∧
      (sorted_prune_scores prune_scores).Perm prune_scores ∧
      (∀ s : Int,
        (sorted_prune_scores prune_scores).filter
            (fun p => decide (p.2 = s)) =
          prune_scores.filter (fun p => decide (p.2 = s))) ∧
      (∀ tr ∈ traces, ∀ e ∈ prune_scores.map Prod.fst,
        (maskEvents tr).count (e, 1) = 1 ∧
          ∀ v : Nat, (e, v) ∈ maskEvents tr → v = 1) := by
  have hmask : ∀ tr ∈ traces,
      maskEvents tr =
        (sorted_prune_scores prune_scores).map (fun p => (p.1, 1)) := by
    intro tr htr
    obtain ⟨b2, hb2, hbt⟩ := run_batches_mem M experiment_type
      test_edge_counts (sorted_prune_scores prune_scores) data_loader traces
      hok tr htr
    obtain ⟨input, po, hin, hpo, rfl⟩ := run_batch_ok_inv _ _ _ _ _ _ hbt
    rcases Decidable.em (0 ∈ test_edge_counts) with h0 | h0
    · rw [if_pos h0]
      simp [maskEvents_edge_loop]
    · rw [if_neg h0]
      simp [maskEvents_edge_loop]
  refine ⟨hmask, pairwise_sorted_prune_scores _, perm_sorted_prune_scores _,
    fun s => filter_sorted_prune_scores s _, ?_⟩
  intro tr htr e he
  rw [hmask tr htr]
  constructor
  · rw [count_pair_map]
    have hperm : ((sorted_prune_scores prune_scores).map Prod.fst).Perm
        (prune_scores.map Prod.fst) :=
      (perm_sorted_prune_scores prune_scores).map Prod.fst
    rw [hperm.count_eq]
    exact List.count_eq_one_of_mem hnd he
  · intro v hv
    obtain ⟨p, hp, heq⟩ := List.mem_map.mp hv
    injection heq with hfst hsnd
    exact hsnd.symm

/-- C4: whenever checkpoint 0 is requested, every batch's trace starts with
the recording, under key 0, of the sliced unmodified forward output on the
chosen batch input, strictly before the patch baseline is computed and
before the patch_mode context is entered, and no other output is recorded
under key 0 in the rest of the batch. -/
theorem claim_C4 {Input Output : Type} (M : PruneModel Input Output)
    (data_loader : List (Batch Input)) (experiment_type : ExperimentType)
    (test_edge_counts : List Nat) (prune_scores : List (Edge × Int))
    (traces : List (List (TraceEvent Output)))
    (hok : run_pruned M data_loader experiment_type test_edge_counts
        prune_scores = Except.ok traces)
    (h0 : 0 ∈ test_edge_counts) :
    traces.length = data_loader.length ∧
      ∀ i (hi : i < data_loader.length) (hj : i < traces.length),
        ∃ input tail,
          select_batch_input experiment_type (data_loader.get ⟨i, hi⟩) =
              Except.ok input ∧
            traces.get ⟨i, hj⟩ =
              TraceEvent.recordOut 0 (M.out_slice (M.forward input)) ::
                TraceEvent.computeBaseline ::
                TraceEvent.enterPatchMode :: tail ∧
            ∀ v : Output, TraceEvent.recordOut 0 v ∉ tail := by
  obtain ⟨hlen, hget⟩ := run_batches_length_get M experiment_type
    test_edge_counts (sorted_prune_scores prune_scores) data_loader traces hok
  refine ⟨hlen, ?_⟩
  intro i hi hj
  obtain ⟨input, po, hin, hpo, htr⟩ :=
    run_batch_ok_inv _ _ _ _ _ _ (hget i hi hj)
  refine ⟨input,
    edge_loop M input test_edge_counts po (sorted_prune_scores prune_scores)
        0 [] ++ [TraceEvent.exitPatchMode], hin, ?_, ?_⟩
  · rw [htr, if_pos h0]
    rfl
  · intro v hv
    rcases List.mem_append.mp hv with hv1 | hv1
    · have hkey : 0 ∈ recordKeys (edge_loop M input test_edge_counts po
          (sorted_prune_scores prune_scores) 0 []) :=
        (mem_recordKeys_iff _ _).mpr ⟨v, hv1⟩
      have := recordKeys_edge_loop M input test_edge_counts po
        (sorted_prune_scores prune_scores) 0 [] 0 hkey
      omega
    · simp at hv1

/-- C8: a requested checkpoint strictly larger than the number of scored
edges never aborts the run — run_pruned returns normally — and the returned
pruned_outs mapping has no entry for that checkpoint (no recordOut event
ever carries that key). -/
theorem claim_C8 {Input Output : Type} (M : PruneModel Input Output)
    (data_loader : List (Batch Input)) (experiment_type : ExperimentType)
    (test_edge_counts : List Nat) (prune_scores : List (Edge × Int)) (k : Nat)
    (hin : experiment_type.input_type = ActType.CLEAN ∨
      experiment_type.input_type = ActType.CORRUPT)
    (hk : prune_scores.length < k) :
    ∃ traces,
      run_pruned M data_loader experiment_type test_edge_counts prune_scores =
          Except.ok traces ∧
        (pruned_outs traces).lookup k = none ∧
        ∀ tr ∈ traces, ∀ v : Output, TraceEvent.recordOut k v ∉ tr := by
  obtain ⟨traces, hok⟩ := run_batches_ok M experiment_type test_edge_counts
    (sorted_prune_scores prune_scores) hin data_loader
  have hS : (sorted_prune_scores prune_scores).length = prune_scores.length :=
    length_sorted_prune_scores prune_scores
  have hnot : ∀ tr ∈ traces, ∀ v : Output, TraceEvent.recordOut k v ∉ tr := by
    intro tr htr v hv
    obtain ⟨b2, hb2, hbt⟩ := run_batches_mem M experiment_type
      test_edge_counts (sorted_prune_scores prune_scores) data_loader traces
      hok tr htr
    obtain ⟨input, po, hin2, hpo, rfl⟩ := run_batch_ok_inv _ _ _ _ _ _ hbt
    have hkey := (mem_recordKeys_iff _ _).mpr ⟨v, hv⟩
    rcases Decidable.em (0 ∈ test_edge_counts) with h0 | h0
    · rw [if_pos h0] at hkey
      simp only [recordKeys_append, recordKeys_recordOut, recordKeys_nil,
        recordKeys_computeBaseline, recordKeys_enterPatchMode,
        recordKeys_exitPatchMode, List.mem_append, List.mem_cons,
        List.mem_singleton, List.not_mem_nil, or_false] at hkey
      rcases hkey with hkey | hkey
      · omega
      · have := recordKeys_edge_loop M input test_edge_counts po
          (sorted_prune_scores prune_scores) 0 [] k (by simpa using hkey)
        omega
    · rw [if_neg h0] at hkey
      simp only [recordKeys_append, recordKeys_nil,
        recordKeys_computeBaseline, recordKeys_enterPatchMode,
        recordKeys_exitPatchMode, List.nil_append, List.mem_append,
        List.not_mem_nil, or_false] at hkey
      have := recordKeys_edge_loop M input test_edge_counts po
        (sorted_prune_scores prune_scores) 0 [] k (by simpa using hkey)
      omega
  refine ⟨traces, hok, ?_, hnot⟩
  show (collect_outs traces.flatten []).lookup k = none
  apply lookup_collect_none
  · intro hkkey
    obtain ⟨v, hv⟩ := (mem_recordKeys_iff _ _).mp hkkey
    obtain ⟨tr, htr, hvtr⟩ := List.mem_flatten.mp hv
    exact hnot tr htr v hvtr
  · rfl

/-- C9: an experiment input type outside {clean, corrupt} makes run_pruned
raise NotImplementedError on the first batch: the run aborts with an error
and returns no partial results. The companion conjunct records that ActType
has exactly the members clean, corrupt and zero, so a patch type outside
that set is not constructible and the corresponding assert in the
patch-baseline selection cannot fire. -/
theorem claim_C9 {Input Output : Type} (M : PruneModel Input Output)
    (b : Batch Input) (bs : List (Batch Input))
    (experiment_type : ExperimentType) (test_edge_counts : List Nat)
    (prune_scores : List (Edge × Int))
    (h1 : experiment_type.input_type ≠ ActType.CLEAN)
    (h2 : experiment_type.input_type ≠ ActType.CORRUPT) :
    run_pruned M (b :: bs) experiment_type test_edge_counts prune_scores =
        Except.error "NotImplementedError" ∧
      ∀ pt : ActType,
        pt = ActType.CLEAN ∨ pt = ActType.CORRUPT ∨ pt = ActType.ZERO := by
  constructor
  · have hsel : select_batch_input experiment_type b =
        Except.error "NotImplementedError" := by
      simp [select_batch_input, h1, h2]
    unfold run_pruned run_batches run_batch
    rw [hsel]
  · intro pt
    cases pt <;> simp

/-- The concrete model used to instantiate the run_pruned theorems: inputs
and outputs are natural numbers, forward and slicing are identities, and
there are no source nodes. -/
def pruneModelW : PruneModel Nat Nat :=
  { forward := fun i => i
    out_slice := fun o => o
    get_sorted_src_outs := fun _ => []
    zeros_like := fun o => o
    forward_patched := fun _ _ i => i }

/-- A first sample edge. -/
def edgeA : Edge := { src_idx := 0, dest_idx := 0, patch_idx := 0 }

/-- A second sample edge. -/
def edgeB : Edge := { src_idx := 0, dest_idx := 1, patch_idx := 1 }

/-- Sample prune scores: edgeA scores 1, edgeB scores 2, so the descending
sort visits edgeB first. -/
def scoresW : List (Edge × Int) := [(edgeA, 1), (edgeB, 2)]

/-- A sample batch. -/
def batchW : Batch Nat := { clean := 5, corrupt := 6 }

/-- Clean input, zero-type patches. -/
def exptW : ExperimentType :=
  { input_type := ActType.CLEAN, patch_type := ActType.ZERO }

/-- An experiment whose input type is outside {clean, corrupt}. -/
def exptZ : ExperimentType :=
  { input_type := ActType.ZERO, patch_type := ActType.ZERO }

/-- The trace produced by run_pruned on the sample data with checkpoints
[1, 2]: no checkpoint-0 record, then the patch context, edgeB first. -/
def tracesC2 : List (List (TraceEvent Nat)) :=
  [[TraceEvent.computeBaseline, TraceEvent.enterPatchMode,
    TraceEvent.setMask edgeB 1, TraceEvent.recordOut 1 5,
    TraceEvent.setMask edgeA 1, TraceEvent.recordOut 2 5,
    TraceEvent.exitPatchMode]]

/-- Witness for C2 at the sample data. -/
theorem claim_C2_witness :
    (∀ tr ∈ tracesC2,
        maskEvents tr = (sorted_prune_scores scoresW).map (fun p => (p.1, 1))) ∧
      List.Pairwise (fun a b => b.2 ≤ a.2) (sorted_prune_scores scoresW) ∧
      (sorted_prune_scores scoresW).Perm scoresW ∧
      (∀ s : Int,
        (sorted_prune_scores scoresW).filter (fun p => decide (p.2 = s)) =
          scoresW.filter (fun p => decide (p.2 = s))) ∧
      (∀ tr ∈ tracesC2, ∀ e ∈ scoresW.map Prod.fst,
        (maskEvents tr).count (e, 1) = 1 ∧
          ∀ v : Nat, (e, v) ∈ maskEvents tr → v = 1) :=
  claim_C2 pruneModelW [batchW] exptW [1, 2] scoresW tracesC2 rfl
    (by decide)

/-- The trace produced by run_pruned on the sample data with checkpoint
list [0]: the unmodified forward output is recorded first. -/
def tracesC4 : List (List (TraceEvent Nat)) :=
  [[TraceEvent.recordOut 0 5, TraceEvent.computeBaseline,
    TraceEvent.enterPatchMode, TraceEvent.setMask edgeB 1,
    TraceEvent.setMask edgeA 1, TraceEvent.exitPatchMode]]

/-- Witness for C4 at the sample data. -/
theorem claim_C4_witness :
    tracesC4.length = ([batchW] : List (Batch Nat)).length ∧
      ∀ i (hi : i < ([batchW] : List (Batch Nat)).length)
        (hj : i < tracesC4.length),
        ∃ input tail,
          select_batch_input exptW (([batchW] : List (Batch Nat)).get ⟨i, hi⟩) =
              Except.ok input ∧
            tracesC4.get ⟨i, hj⟩ =
              TraceEvent.recordOut 0
                  (pruneModelW.out_slice (pruneModelW.forward input)) ::
                TraceEvent.computeBaseline ::
                TraceEvent.enterPatchMode :: tail ∧
            ∀ v : Nat, TraceEvent.recordOut 0 v ∉ tail :=
  claim_C4 pruneModelW [batchW] exptW [0] scoresW tracesC4 rfl
    (by decide)

/-- Witness for C8 at the sample data: checkpoint 5 exceeds the 2 scored
edges. -/
theorem claim_C8_witness :
    ∃ traces,
      run_pruned pruneModelW [batchW] exptW [0, 5] scoresW =
          Except.ok traces ∧
        (pruned_outs traces).lookup 5 = none ∧
        ∀ tr ∈ traces, ∀ v : Nat, TraceEvent.recordOut 5 v ∉ tr :=
  claim_C8 pruneModelW [batchW] exptW [0, 5] scoresW 5 (Or.inl rfl)
    (by decide)

/-- Witness for C9 at the sample data: a zero input type aborts the run. -/
theorem claim_C9_witness :
    run_pruned pruneModelW [batchW] exptZ [0] scoresW =
        Except.error "NotImplementedError" ∧
      ∀ pt : ActType,
        pt = ActType.CLEAN ∨ pt = ActType.CORRUPT ∨ pt = ActType.ZERO :=
  claim_C9 pruneModelW batchW [] exptZ [0] scoresW (by decide) (by decide)

/-- PatchableModel from auto_circuit.utils.patchable_model as relied on by
AutoencoderTransformer.__init__: a wrapper object exposing the underlying
model as its wrapped_model attribute. -/
structure PatchableModel (β : Type) where
  wrapped_model : β

/-- The argument passed to AutoencoderTransformer.__init__: either a
PatchableModel wrapper or any other model object (the isinstance check). -/
inductive WrappedModelArg (β : Type) where
  | patchable (p : PatchableModel β)
  | plain (model : β)

/-- The AutoencoderTransformer wrapper state: the stored inner model and the
list of sparse autoencoders (opaque, identified by index). -/
structure AutoencoderTransformer (β : Type) where
  wrapped_model : β
  sparse_autoencoders : List Nat

/-- AutoencoderTransformer.__init__ (autoencoder_transformer.py lines 22-29):
if the given model is a PatchableModel, store its inner wrapped_model;
otherwise store the model as given. -/
def AutoencoderTransformer.init {β : Type} (wrapped_model : WrappedModelArg β)
    (saes : List Nat) : AutoencoderTransformer β :=
  match wrapped_model with
  | .patchable p =>
    { wrapped_model := p.wrapped_model, sparse_autoencoders := saes }
  | .plain model =>
    { wrapped_model := model, sparse_autoencoders := saes }

/-- The operations of the underlying transformer that the wrapper delegates,
kept opaque: the plain call, run_with_cache, add_hook, the cfg and tokenizer
attributes, and string conversion. -/
structure ModelInterface (β Inp Out CacheOut Hook HookRes Cfg Tok : Type) where
  call : β → Inp → Out
  run_with_cache : β → Inp → CacheOut
  add_hook : β → Hook → HookRes
  cfg : β → Cfg
  tokenizer : β → Tok
  str : β → String

section Delegation

variable {β Inp Out CacheOut Hook HookRes Cfg Tok : Type}
variable (I : ModelInterface β Inp Out CacheOut Hook HookRes Cfg Tok)

/-- AutoencoderTransformer.forward (line 31-32): delegate to the stored
wrapped_model. -/
def AutoencoderTransformer.forward (self : AutoencoderTransformer β)
    (x : Inp) : Out :=
  I.call self.wrapped_model x

/-- AutoencoderTransformer.run_with_cache (lines 101-102). -/
def AutoencoderTransformer.run_with_cache (self : AutoencoderTransformer β)
    (x : Inp) : CacheOut :=
  I.run_with_cache self.wrapped_model x

/-- AutoencoderTransformer.add_hook (lines 104-105). -/
def AutoencoderTransformer.add_hook (self : AutoencoderTransformer β)
    (h : Hook) : HookRes :=
  I.add_hook self.wrapped_model h

/-- The AutoencoderTransformer.cfg property (lines 107-109). -/
def AutoencoderTransformer.cfg (self : AutoencoderTransformer β) : Cfg :=
  I.cfg self.wrapped_model

/-- The AutoencoderTransformer.tokenizer property (lines 111-113). -/
def AutoencoderTransformer.tokenizer (self : AutoencoderTransformer β) : Tok :=
  I.tokenizer self.wrapped_model

/-- AutoencoderTransformer.__str__ (lines 132-133). -/
def AutoencoderTransformer.str (self : AutoencoderTransformer β) : String :=
  I.str self.wrapped_model

end Delegation

/-- C10: constructing an AutoencoderTransformer from a PatchableModel stores
the wrapper's inner wrapped_model — not the PatchableModel itself — so
forward, run_with_cache, add_hook, cfg, tokenizer and string conversion all
act on the inner model; any other model is stored as given. -/
theorem claim_C10 {β Inp Out CacheOut Hook HookRes Cfg Tok : Type}
    (I : ModelInterface β Inp Out CacheOut Hook HookRes Cfg Tok)
    (p : PatchableModel β) (saes : List Nat) (x : Inp) (h : Hook) :
    (AutoencoderTransformer.init (.patchable p) saes).wrapped_model =
        p.wrapped_model ∧
      (AutoencoderTransformer.init (.patchable p) saes).forward I x =
        I.call p.wrapped_model x ∧
      (AutoencoderTransformer.init (.patchable p) saes).run_with_cache I x =
        I.run_with_cache p.wrapped_model x ∧
      (AutoencoderTransformer.init (.patchable p) saes).add_hook I h =
        I.add_hook p.wrapped_model h ∧
      (AutoencoderTransformer.init (.patchable p) saes).cfg I =
        I.cfg p.wrapped_model ∧
      (AutoencoderTransformer.init (.patchable p) saes).tokenizer I =
        I.tokenizer p.wrapped_model ∧
      (AutoencoderTransformer.init (.patchable p) saes).str I =
        I.str p.wrapped_model ∧
      ∀ model : β,
        (AutoencoderTransformer.init (.plain model) saes).wrapped_model =
          model :=
  ⟨rfl, rfl, rfl, rfl, rfl, rfl, rfl, fun _ => rfl⟩

/-- A concrete interface over Nat-coded models for instantiating C10. -/
def modelInterfaceW : ModelInterface Nat Nat Nat Nat Nat Nat Nat Nat :=
  { call := fun m x => m + x
    run_with_cache := fun m x => m * x + 1
    add_hook := fun m h => m + h + 2
    cfg := fun m => m
    tokenizer := fun m => m + 3
    str := fun m => toString m }

/-- A concrete PatchableModel wrapping the Nat-coded model 7. -/
def patchableW : PatchableModel Nat := { wrapped_model := 7 }

/-- Witness for C10 at the concrete interface and wrapper. -/
theorem claim_C10_witness :
    (AutoencoderTransformer.init (.patchable patchableW) [1, 2]).wrapped_model =
        patchableW.wrapped_model ∧
      (AutoencoderTransformer.init (.patchable patchableW) [1, 2]).forward
          modelInterfaceW 4 =
        modelInterfaceW.call patchableW.wrapped_model 4 ∧
      (AutoencoderTransformer.init
            (.patchable patchableW) [1, 2]).run_with_cache modelInterfaceW 4 =
        modelInterfaceW.run_with_cache patchableW.wrapped_model 4 ∧
      (AutoencoderTransformer.init (.patchable patchableW) [1, 2]).add_hook
          modelInterfaceW 9 =
        modelInterfaceW.add_hook patchableW.wrapped_model 9 ∧
      (AutoencoderTransformer.init (.patchable patchableW) [1, 2]).cfg
          modelInterfaceW =
        modelInterfaceW.cfg patchableW.wrapped_model ∧
      (AutoencoderTransformer.init (.patchable patchableW) [1, 2]).tokenizer
          modelInterfaceW =
        modelInterfaceW.tokenizer patchableW.wrapped_model ∧
      (AutoencoderTransformer.init (.patchable patchableW) [1, 2]).str
          modelInterfaceW =
        modelInterfaceW.str patchableW.wrapped_model ∧
      ∀ model : Nat,
        (AutoencoderTransformer.init (.plain model) [1, 2]).wrapped_model =
          model :=
  claim_C10 modelInterfaceW patchableW [1, 2] 4 9

end AutoCircuit
